import Mathlib

/-!
# Theme settings: brush evaluation, JSON layering and serialisation

A shallow embedding of `src/cascadia/TerminalSettingsModel/Theme.cpp`.

* Toolkit objects (brushes, colours, the resource dictionary, the registry) are
  plain data passed in explicitly.
* C++ exceptions are the `error` side of `Except Exn`.
* A nullable WinRT reference or `com_ptr` is an `Option`.
* jsoncpp values are the inductive type `Json`.
-/

namespace Terminal

/-! ## Exceptions -/

/-- The exceptions the embedded code can raise. -/
inductive Exn where
  /-- `JsonUtils::DeserializationError`, with the key it was re-thrown under -/
  | deserializationError (key : Option String)
  /-- `Json::LogicError`, raised by jsoncpp's own assertions -/
  | logicError
  /-- `winrt::hresult_error`, raised by a failing toolkit call -/
  | hresultError
deriving DecidableEq, Repr

/-! ## Colours and brushes -/

/-- A colour as its four byte channels (`til::color`, `Core::Color` and
`Windows::UI::Color` all carry exactly these). -/
structure Color where
  r : Nat
  g : Nat
  b : Nat
  a : Nat
deriving DecidableEq, Repr

/-- Modelled from the spec: `til::color::with_alpha` (src/inc/til/color.h) is not
among the sources. The spec's title-bar special-casing fills in full opacity and
keeps the colour, so the helper replaces the alpha channel and nothing else. -/
def Color.with_alpha (c : Color) (alpha : Nat) : Color :=
  { r := c.r, g := c.g, b := c.b, a := alpha }

/-- Modelled from the spec: the `til::color` constructor from a `COLORREF`
(src/inc/til/color.h) is not among the sources. A `COLORREF` is `0x00BBGGRR`; the
resulting colour is opaque. -/
def Color.ofCOLORREF (c : Nat) : Color :=
  { r := c % 256, g := (c / 256) % 256, b := (c / 65536) % 256, a := 255 }

/-- Modelled from the spec: the value-initialised `til::color` (`return {}`), whose
declaration is not among the sources: every channel zero. -/
def Color.zero : Color :=
  { r := 0, g := 0, b := 0, a := 0 }

/-- `Windows::UI::Xaml::Media::AcrylicBackgroundSource`. -/
inductive AcrylicBackgroundSource where
  | Backdrop
  | HostBackdrop
deriving DecidableEq, Repr

/-- `Windows::UI::Xaml::Media::SolidColorBrush`: its colour and the `Opacity`
every brush has. -/
structure SolidColorBrush where
  Color : Color
  Opacity : ℚ
deriving DecidableEq

/-- `Windows::UI::Xaml::Media::AcrylicBrush`: the properties the code reads or
writes, and the `Opacity` every brush has. `TintLuminosityOpacity` is an
`IReference<double>`, hence nullable. -/
structure AcrylicBrush where
  TintColor : Color
  FallbackColor : Color
  TintLuminosityOpacity : Option ℚ
  TintOpacity : ℚ
  BackgroundSource : AcrylicBackgroundSource
  Opacity : ℚ
deriving DecidableEq

/-- A `Windows::UI::Xaml::Media::Brush` reference: null, one of the two classes
`try_as` can recognise, or a brush of some other class. -/
inductive Brush where
  | null
  | acrylic (brush : AcrylicBrush)
  | solid (brush : SolidColorBrush)
  | other (id : Nat)
deriving DecidableEq

/-- `ThemeColorType`. -/
inductive ThemeColorType where
  | Accent
  | Color
  | TerminalBackground
deriving DecidableEq, Repr

/-- The implementation class `ThemeColor`: `_Color` and `_ColorType`. -/
structure ThemeColor where
  Color : Color
  ColorType : ThemeColorType
deriving DecidableEq, Repr

/-- `ThemeColor::FromColor`. -/
def ThemeColor.FromColor (coreColor : Terminal.Color) : ThemeColor :=
  { Color := coreColor, ColorType := ThemeColorType.Color }

/-- `ThemeColor::FromAccent`; `_Color` keeps its value-initialised state. -/
def ThemeColor.FromAccent : ThemeColor :=
  { Color := Color.zero, ColorType := ThemeColorType.Accent }

/-- `ThemeColor::FromTerminalBackground`; `_Color` keeps its value-initialised
state. -/
def ThemeColor.FromTerminalBackground : ThemeColor :=
  { Color := Color.zero, ColorType := ThemeColorType.TerminalBackground }

/-- What `Evaluate` reads from outside the program: the DWORD stored under
`HKCU\Software\Microsoft\Windows\DWM\AccentColor`, `none` when the key or the
value cannot be read. -/
structure Registry where
  dwmAccentColor : Option Nat

/-- `readDwmSubValue`: `val` starts at 0 and is only overwritten by a successful
query. -/
def readDwmSubValue (reg : Registry) : Nat :=
  match reg.dwmAccentColor with
  | some val => val
  | none => 0

/-- `_getAccentColorForTitlebar`. -/
def _getAccentColorForTitlebar (reg : Registry) : Color :=
  Color.ofCOLORREF (readDwmSubValue reg)

/-- A `ResourceDictionary` as far as the code uses it: `Lookup` of a key followed
by `unbox_value<Color>`; `none` when either step fails. -/
abbrev ResourceDictionary := String → Option Color

/-- `ThemeColor::ColorFromBrush`. -/
def ThemeColor.ColorFromBrush (brush : Brush) : Terminal.Color :=
  match brush with
  | Brush.acrylic acrylic => acrylic.TintColor
  | Brush.solid solidColor => solidColor.Color
  | _ => Color.zero

/-- `ThemeColor::Evaluate`. A freshly constructed brush has `Opacity` 1. The
trailing `return nullptr` is only reached for a `ThemeColorType` outside the
three enumerators, which the type here excludes. -/
def ThemeColor.Evaluate (reg : Registry) (self : ThemeColor) (res : ResourceDictionary)
    (terminalBackground : Brush) (forTitlebar : Bool) : Except Exn Brush :=
  match self.ColorType with
  | ThemeColorType.Accent => do
      let accentColor ←
        if forTitlebar then
          pure (_getAccentColorForTitlebar reg)
        else
          match res "SystemAccentColor" with
          | some c => pure c
          | none => throw Exn.hresultError
      let accentBrush : SolidColorBrush := { Color := accentColor, Opacity := 1 }
      if forTitlebar then
        pure (Brush.solid { accentBrush with Opacity := 1 })
      else
        pure (Brush.solid accentBrush)
  | ThemeColorType.Color =>
      pure (Brush.solid
        { Color := if forTitlebar then self.Color.with_alpha 255 else self.Color,
          Opacity := 1 })
  | ThemeColorType.TerminalBackground =>
      if forTitlebar then
        match terminalBackground with
        | Brush.acrylic acrylic =>
            pure (Brush.acrylic
              { TintColor := acrylic.TintColor,
                FallbackColor := acrylic.FallbackColor,
                TintLuminosityOpacity := acrylic.TintLuminosityOpacity,
                TintOpacity := 1 / 2,
                BackgroundSource := AcrylicBackgroundSource.HostBackdrop,
                Opacity := 1 })
        | Brush.solid solidColor =>
            pure (Brush.solid { Color := solidColor.Color.with_alpha 255, Opacity := 1 })
        | _ => pure terminalBackground
      else
        pure terminalBackground

/-! ## jsoncpp values -/

/-- A `Json::Value`. Numbers are kept as integers; no code embedded here looks at
a number's value. -/
inductive Json where
  | null
  | bool (b : Bool)
  | number (n : Int)
  | string (s : String)
  | array (items : List Json)
  | object (members : List (String × Json))

/-- The member map of an object value (`Json::Value json{ objectValue }` while it
is being filled). Keys are unique. -/
abbrev Members := List (String × Json)

/-- `Json::Value::isNull`; also `!json` and `json == Json::Value::null`. -/
def Json.isNull (json : Json) : Bool :=
  match json with
  | Json.null => true
  | _ => false

/-- `Json::Value::isString`. -/
def Json.isString (json : Json) : Bool :=
  match json with
  | Json.string _ => true
  | _ => false

/-- `Json::Value::isObject`. -/
def Json.isObject (json : Json) : Bool :=
  match json with
  | Json.object _ => true
  | _ => false

/-- `Json::Value::find(begin, end)`: the member stored under the key, if any; a
null value has no members, and any other non-object trips jsoncpp's assertion. -/
def Json.find (json : Json) (key : String) : Except Exn (Option Json) :=
  match json with
  | Json.null => pure none
  | Json.object members => pure (members.lookup key)
  | _ => throw Exn.logicError

/-- The assignment `*json.demand(begin, end) = value` on an object: the member
under the key is created if need be and then overwritten. -/
def Members.assign (members : Members) (key : String) (value : Json) : Members :=
  match members with
  | [] => [(key, value)]
  | (k, v) :: rest =>
      if key == k then (k, value) :: rest else (k, v) :: Members.assign rest key value

/-! ## JsonUtils -/

/-- Modelled from the spec: the `ConversionTrait<T>` protocol of JsonUtils.h, which
is not among the sources. Its three operations are the ones the macro-generated
converters of Theme.cpp define (`TypeDescription` only feeds error messages). -/
structure ConversionTrait (τ : Type) where
  FromJson : Json → Except Exn τ
  CanConvert : Json → Bool
  ToJson : τ → Json

namespace JsonUtils

/-- Modelled from the spec: `JsonUtils::GetValue(json, target)` (JsonUtils.h, not
among the sources): a value the converter cannot convert raises a
`DeserializationError`, otherwise the target receives the converted value. -/
def GetValue {τ : Type} (conv : ConversionTrait τ) (json : Json) : Except Exn τ :=
  if conv.CanConvert json then conv.FromJson json
  else throw (Exn.deserializationError none)

/-- Modelled from the spec: `JsonUtils::GetValueForKey(json, key, target)`
(JsonUtils.h, not among the sources). `some v` stands for "returned true and stored
v in the target", `none` for "key absent, target untouched". A
`DeserializationError` is re-thrown with the key attached. -/
def GetValueForKey {τ : Type} (conv : ConversionTrait τ) (json : Json) (key : String) :
    Except Exn (Option τ) := do
  match ← json.find key with
  | some found =>
      match GetValue conv found with
      | Except.ok v => pure (some v)
      | Except.error (Exn.deserializationError _) =>
          throw (Exn.deserializationError (some key))
      | Except.error e => throw e
  | none => pure none

/-- Modelled from the spec: the converter JsonUtils.h (not among the sources)
supplies for `std::optional<T>`: null is acceptable, and a null the wrapped
converter does not understand becomes the empty optional. -/
def OptionalConverter {τ : Type} (delegatedConverter : ConversionTrait τ) :
    ConversionTrait (Option τ) where
  FromJson json :=
    if json.isNull && !delegatedConverter.CanConvert json then pure none
    else do
      let val ← delegatedConverter.FromJson json
      pure (some val)
  CanConvert json := json.isNull || delegatedConverter.CanConvert json
  ToJson val :=
    match val with
    | none => Json.null
    | some v => delegatedConverter.ToJson v

/-- Modelled from the spec: `JsonUtils::GetValueForKey<std::optional<T>>(json, key)`
(JsonUtils.h, not among the sources): a local empty optional, filled through
`GetValueForKey` with the optional converter, and returned. -/
def GetOptionalValueForKey {τ : Type} (conv : ConversionTrait τ) (json : Json)
    (key : String) : Except Exn (Option τ) := do
  match ← GetValueForKey (OptionalConverter conv) json key with
  | some v => pure v
  | none => pure none

/-- Modelled from the spec: `JsonUtils::SetValueForKey(json, key, target)`
(JsonUtils.h, not among the sources) for a target that is not a `std::optional`:
the member under the key is set to the converted target. -/
def SetValueForKey {τ : Type} (json : Members) (key : String) (target : τ)
    (conv : ConversionTrait τ) : Members :=
  json.assign key (conv.ToJson target)

end JsonUtils

/-! ## Settings tables and the macro-generated converters -/

/-- One row `X(type, name, jsonKey, ...)` of a settings table over the
implementation class `σ`: the property's type with its `ConversionTrait`, the
getter `val.name()`, the setter `result->name(v)` and the JSON key. -/
structure Setting (σ : Type) where
  type : Type
  conv : ConversionTrait type
  get : σ → type
  set : σ → type → σ
  jsonKey : String

/-- `THEME_SETTINGS_FROM_JSON(type, name, jsonKey, ...)` applied to one row. -/
def THEME_SETTINGS_FROM_JSON {σ : Type} (row : Setting σ) (json : Json) (result : σ) :
    Except Exn σ := do
  let _val ← JsonUtils.GetOptionalValueForKey row.conv json row.jsonKey
  match _val with
  | some v => pure (row.set result v)
  | none => pure result

/-- `THEME_SETTINGS_TO_JSON(type, name, jsonKey, ...)` applied to one row (the
version inside `THEME_OBJECT_CONVERTER`). -/
def THEME_SETTINGS_TO_JSON {σ : Type} (row : Setting σ) (val : σ) (json : Members) :
    Members :=
  JsonUtils.SetValueForKey json row.jsonKey (row.get val) row.conv

/-- `THEME_OBJECT_CONVERTER(nameSpace, name, macro)`: the `ConversionTrait` of a
nullable sub-object; `make_self` is the default-constructed implementation object
and `table` the rows of `macro`. -/
def THEME_OBJECT_CONVERTER {σ : Type} (make_self : σ) (table : List (Setting σ)) :
    ConversionTrait (Option σ) where
  FromJson json :=
    if json.isNull then pure none
    else do
      let result ← table.foldlM (fun result row => THEME_SETTINGS_FROM_JSON row json result)
        make_self
      pure (some result)
  CanConvert json := json.isObject
  ToJson val :=
    match val with
    | none => Json.null
    | some val =>
        Json.object (table.foldl (fun json row => THEME_SETTINGS_TO_JSON row val json) [])

/-! ## Theme -/

/-- `Windows::UI::Xaml::ElementTheme`. -/
inductive ElementTheme where
  | Default
  | Light
  | Dark
deriving DecidableEq, Repr

/-- Modelled from the spec: the implementation class `WindowTheme` (Theme.h and
MTSMSettings.h, not among the sources), the "window-level (light/dark/system)"
sub-object. `RequestedTheme` is the property Theme.cpp itself reads and writes. -/
structure WindowTheme where
  RequestedTheme : ElementTheme
  UseMica : Bool
deriving DecidableEq, Repr

/-- Modelled from the spec: the implementation class `TabRowTheme` (Theme.h and
MTSMSettings.h, not among the sources), the "tab-row-level visual settings"
sub-object; its colours are nullable `ThemeColor` references. -/
structure TabRowTheme where
  Background : Option ThemeColor
  UnfocusedBackground : Option ThemeColor
deriving DecidableEq, Repr

/-- Modelled from the spec: `winrt::make_self<implementation::WindowTheme>()`, the
default-constructed window sub-object (Theme.h, not among the sources). -/
def WindowTheme.make_self : WindowTheme :=
  { RequestedTheme := ElementTheme.Default, UseMica := false }

/-- Modelled from the spec: `winrt::make_self<implementation::TabRowTheme>()`, the
default-constructed tab-row sub-object (Theme.h, not among the sources). -/
def TabRowTheme.make_self : TabRowTheme :=
  { Background := none, UnfocusedBackground := none }

/-- The parts of the program Theme.cpp uses and the sources do not contain: the
two leaf converters it calls directly and the two settings tables handed to
`THEME_OBJECT_CONVERTER`. -/
structure Settings where
  /-- `ConversionTrait<winrt::hstring>` -/
  hstringTrait : ConversionTrait String
  /-- `ConversionTrait<ElementTheme>` -/
  elementThemeTrait : ConversionTrait ElementTheme
  /-- the rows of `MTSM_THEME_WINDOW_SETTINGS` -/
  MTSM_THEME_WINDOW_SETTINGS : List (Setting WindowTheme)
  /-- the rows of `MTSM_THEME_TABROW_SETTINGS` -/
  MTSM_THEME_TABROW_SETTINGS : List (Setting TabRowTheme)

/-- `THEME_OBJECT_CONVERTER(..., WindowTheme, MTSM_THEME_WINDOW_SETTINGS)`. -/
def Settings.WindowThemeTrait (cfg : Settings) : ConversionTrait (Option WindowTheme) :=
  THEME_OBJECT_CONVERTER WindowTheme.make_self cfg.MTSM_THEME_WINDOW_SETTINGS

/-- `THEME_OBJECT_CONVERTER(..., TabRowTheme, MTSM_THEME_TABROW_SETTINGS)`. -/
def Settings.TabRowThemeTrait (cfg : Settings) : ConversionTrait (Option TabRowTheme) :=
  THEME_OBJECT_CONVERTER TabRowTheme.make_self cfg.MTSM_THEME_TABROW_SETTINGS

/-- `NameKey`. -/
def NameKey : String := "name"

/-- Modelled from the spec: the JSON key of the `Window` row of
`MTSM_THEME_SETTINGS` (MTSMSettings.h, not among the sources). -/
def WindowKey : String := "window"

/-- Modelled from the spec: the JSON key of the `TabRow` row of
`MTSM_THEME_SETTINGS` (MTSMSettings.h, not among the sources). -/
def TabRowKey : String := "tabRow"

/-- The implementation class `Theme`: `_Name`, `_Window`, `_TabRow`. -/
structure Theme where
  Name : String
  Window : Option WindowTheme
  TabRow : Option TabRowTheme
deriving DecidableEq, Repr

/-- `Theme::Theme(const ElementTheme& requestedTheme)`. -/
def Theme.ofRequestedTheme (requestedTheme : ElementTheme) : Theme :=
  let window := { WindowTheme.make_self with RequestedTheme := requestedTheme }
  { Name := "", Window := some window, TabRow := none }

/-- `Theme::Theme()`, which is what `winrt::make_self<Theme>()` runs. -/
def Theme.make_self : Theme :=
  Theme.ofRequestedTheme ElementTheme.Default

/-- `THEME_SETTINGS_LAYER_JSON(type, name, jsonKey, ...)` for one row of
`MTSM_THEME_SETTINGS`: the new value of the member `_name`. -/
def THEME_SETTINGS_LAYER_JSON {σ : Type} (conv : ConversionTrait (Option σ)) (json : Json)
    (jsonKey : String) : Except Exn (Option σ) := do
  let _val ← JsonUtils.GetOptionalValueForKey conv json jsonKey
  match _val with
  | some v => pure v
  | none => pure none

/-- `Theme::LayerJson`. The result is the state of the object when the call
returns; an exception leaves no result. -/
def Theme.LayerJson (cfg : Settings) (self : Theme) (json : Json) : Except Exn Theme :=
  if json.isString then do
    let _Name ← JsonUtils.GetValue cfg.hstringTrait json
    let requestedTheme ← JsonUtils.GetValue cfg.elementThemeTrait json
    let window := { WindowTheme.make_self with RequestedTheme := requestedTheme }
    pure { self with Name := _Name, Window := some window }
  else do
    let _Name ←
      match ← JsonUtils.GetValueForKey cfg.hstringTrait json NameKey with
      | some v => pure v
      | none => pure self.Name
    let _Window ← THEME_SETTINGS_LAYER_JSON cfg.WindowThemeTrait json WindowKey
    let _TabRow ← THEME_SETTINGS_LAYER_JSON cfg.TabRowThemeTrait json TabRowKey
    pure { Name := _Name, Window := _Window, TabRow := _TabRow }

/-- `Theme::FromJson`. The result is the `com_ptr<Theme>` it returns. -/
def Theme.FromJson (cfg : Settings) (json : Json) : Except Exn (Option Theme) := do
  let result := Theme.make_self
  let result ← result.LayerJson cfg json
  pure (some result)

/-- `Theme::ToJson`. -/
def Theme.ToJson (cfg : Settings) (self : Theme) : Json :=
  let json : Members := []
  let json := JsonUtils.SetValueForKey json NameKey self.Name cfg.hstringTrait
  let json :=
    if self.Window.isSome then
      JsonUtils.SetValueForKey json WindowKey self.Window cfg.WindowThemeTrait
    else json
  let json :=
    if self.TabRow.isSome then
      JsonUtils.SetValueForKey json TabRowKey self.TabRow cfg.TabRowThemeTrait
    else json
  Json.object json

/-- `Theme::RequestedTheme`. -/
def Theme.RequestedTheme (self : Theme) : ElementTheme :=
  match self.Window with
  | some window => window.RequestedTheme
  | none => ElementTheme.Default

/-! ## What the round trip asks of a settings table -/

/-- The row's converter reads back what it writes for the row's value in `val`. -/
def Setting.RoundTrips {σ : Type} (row : Setting σ) (val : σ) : Prop :=
  row.conv.CanConvert (row.conv.ToJson (row.get val)) = true ∧
  row.conv.FromJson (row.conv.ToJson (row.get val)) = Except.ok (row.get val)

/-- The rows of a table are distinct properties under distinct keys: a getter
returns what its own setter stored, and any two rows have different JSON keys and
setters that leave the other row's property alone. -/
def WellFormedTable {σ : Type} (table : List (Setting σ)) : Prop :=
  (∀ row ∈ table, ∀ (s : σ) (v : row.type), row.get (row.set s v) = v) ∧
  table.Pairwise (fun a b =>
    a.jsonKey ≠ b.jsonKey ∧
    (∀ (s : σ) (v : a.type), b.get (a.set s v) = b.get s) ∧
    (∀ (s : σ) (v : b.type), a.get (b.set s v) = a.get s))


/-! ## A concrete configuration

The leaf converters and the two tables in the shape they have upstream. The
theorems below hold for every configuration; this one instantiates them. -/

/-- Modelled from the spec: `ConversionTrait<winrt::hstring>` (JsonUtils.h, not
among the sources): JSON strings, with null standing for the empty string. -/
def stockHstringTrait : ConversionTrait String where
  FromJson json :=
    match json with
    | Json.null => pure ""
    | Json.string s => pure s
    | _ => throw Exn.logicError
  CanConvert json := json.isString || json.isNull
  ToJson val := if val = "" then Json.null else Json.string val

/-- Modelled from the spec: the enum mapper for `ElementTheme`
(TerminalSettingsSerializationHelpers.h, not among the sources): the spec's
"window-level (light/dark/system)", with `system` for `ElementTheme::Default` as
in the comment on `Theme::RequestedTheme`. -/
def stockElementThemeTrait : ConversionTrait ElementTheme where
  FromJson json :=
    match json with
    | Json.string s =>
        if s = "system" then pure ElementTheme.Default
        else if s = "light" then pure ElementTheme.Light
        else if s = "dark" then pure ElementTheme.Dark
        else throw (Exn.deserializationError none)
    | _ => throw (Exn.deserializationError none)
  CanConvert json := json.isString
  ToJson val :=
    match val with
    | ElementTheme.Default => Json.string "system"
    | ElementTheme.Light => Json.string "light"
    | ElementTheme.Dark => Json.string "dark"

/-- Modelled from the spec: `ConversionTrait<bool>` (JsonUtils.h, not among the
sources). -/
def stockBoolTrait : ConversionTrait Bool where
  FromJson json :=
    match json with
    | Json.bool b => pure b
    | _ => throw Exn.logicError
  CanConvert json :=
    match json with
    | Json.bool _ => true
    | _ => false
  ToJson val := Json.bool val

/-- The upper-case hexadecimal digit of a value below 16. -/
def hexDigit (n : Nat) : Char :=
  if n < 10 then Char.ofNat (48 + n) else Char.ofNat (55 + n)

/-- The value of a hexadecimal digit, either case. -/
def hexValue (c : Char) : Option Nat :=
  if 48 ≤ c.toNat ∧ c.toNat ≤ 57 then some (c.toNat - 48)
  else if 65 ≤ c.toNat ∧ c.toNat ≤ 70 then some (c.toNat - 55)
  else if 97 ≤ c.toNat ∧ c.toNat ≤ 102 then some (c.toNat - 87)
  else none

/-- The byte written with two hexadecimal digits; anything else is rejected. -/
def hexByte (hi lo : Char) : Except Exn Nat :=
  match hexValue hi, hexValue lo with
  | some h, some l => pure (16 * h + l)
  | _, _ => throw Exn.hresultError

/-- Modelled from the spec: `til::color::ToHexString(false)` (src/inc/til/color.h,
not among the sources): `#RRGGBBAA`. -/
def Color.ToHexString (c : Color) : String :=
  String.mk
    [ '#', hexDigit (c.r / 16 % 16), hexDigit (c.r % 16),
      hexDigit (c.g / 16 % 16), hexDigit (c.g % 16),
      hexDigit (c.b / 16 % 16), hexDigit (c.b % 16),
      hexDigit (c.a / 16 % 16), hexDigit (c.a % 16) ]

/-- Modelled from the spec: `Utils::ColorFromHexString` (src/types/utils.cpp, not
among the sources): `#RGB`, `#RRGGBB` (both opaque) or `#RRGGBBAA`. -/
def ColorFromHexString (str : String) : Except Exn Color :=
  match str.data with
  | [h, r, g, b] =>
      if h = '#' then do
        pure { r := ← hexByte r r, g := ← hexByte g g, b := ← hexByte b b, a := 255 }
      else throw Exn.hresultError
  | [h, r1, r2, g1, g2, b1, b2] =>
      if h = '#' then do
        pure { r := ← hexByte r1 r2, g := ← hexByte g1 g2, b := ← hexByte b1 b2, a := 255 }
      else throw Exn.hresultError
  | [h, r1, r2, g1, g2, b1, b2, a1, a2] =>
      if h = '#' then do
        pure { r := ← hexByte r1 r2, g := ← hexByte g1 g2, b := ← hexByte b1 b2,
               a := ← hexByte a1 a2 }
      else throw Exn.hresultError
  | _ => throw Exn.hresultError

/-- Modelled from the spec: `ConversionTrait<ThemeColor>`
(TerminalSettingsSerializationHelpers.h, not among the sources): the spec's tagged
choice among "explicit color", "OS accent color" and "inherit terminal
background"; null is the null reference. -/
def stockThemeColorTrait : ConversionTrait (Option ThemeColor) where
  FromJson json :=
    match json with
    | Json.null => pure none
    | Json.string s =>
        if s = "accent" then pure (some ThemeColor.FromAccent)
        else if s = "terminalBackground" then pure (some ThemeColor.FromTerminalBackground)
        else do
          let c ← ColorFromHexString s
          pure (some (ThemeColor.FromColor c))
    | _ => throw Exn.logicError
  CanConvert json :=
    match json with
    | Json.null => true
    | Json.string s =>
        ((s.data.length = 9 || s.data.length = 7 || s.data.length = 4) && s.data.head? = some '#')
          || s = "accent" || s = "terminalBackground"
    | _ => false
  ToJson val :=
    match val with
    | none => Json.null
    | some v =>
        match v.ColorType with
        | ThemeColorType.Accent => Json.string "accent"
        | ThemeColorType.Color => Json.string v.Color.ToHexString
        | ThemeColorType.TerminalBackground => Json.string "terminalBackground"

/-- Modelled from the spec: the rows of `MTSM_THEME_WINDOW_SETTINGS`
(MTSMSettings.h, not among the sources). -/
def stockWindowSettings : List (Setting WindowTheme) :=
  [ { type := ElementTheme, conv := stockElementThemeTrait,
      get := fun val => val.RequestedTheme,
      set := fun result v => { result with RequestedTheme := v },
      jsonKey := "applicationTheme" },
    { type := Bool, conv := stockBoolTrait,
      get := fun val => val.UseMica,
      set := fun result v => { result with UseMica := v },
      jsonKey := "useMica" } ]

/-- Modelled from the spec: the rows of `MTSM_THEME_TABROW_SETTINGS`
(MTSMSettings.h, not among the sources). -/
def stockTabRowSettings : List (Setting TabRowTheme) :=
  [ { type := Option ThemeColor, conv := stockThemeColorTrait,
      get := fun val => val.Background,
      set := fun result v => { result with Background := v },
      jsonKey := "background" },
    { type := Option ThemeColor, conv := stockThemeColorTrait,
      get := fun val => val.UnfocusedBackground,
      set := fun result v => { result with UnfocusedBackground := v },
      jsonKey := "unfocusedBackground" } ]

/-- The concrete configuration. -/
def stockSettings : Settings where
  hstringTrait := stockHstringTrait
  elementThemeTrait := stockElementThemeTrait
  MTSM_THEME_WINDOW_SETTINGS := stockWindowSettings
  MTSM_THEME_TABROW_SETTINGS := stockTabRowSettings

/-! ## Brush evaluation -/

/-- C4: an explicit colour evaluates, for every registry state, resource
dictionary and terminal-background brush, to a solid-colour brush; the colour read
back by `ColorFromBrush` is the colour itself outside the title bar and the colour
with alpha 255 (red, green, blue unchanged) for the title bar. -/
theorem Evaluate_FromColor_solid (reg : Registry) (c : Color) (res : ResourceDictionary)
    (terminalBackground : Brush) (forTitlebar : Bool) :
    ∃ solidBrush : SolidColorBrush,
      (ThemeColor.FromColor c).Evaluate reg res terminalBackground forTitlebar
        = Except.ok (Brush.solid solidBrush) ∧
      ThemeColor.ColorFromBrush (Brush.solid solidBrush)
        = (if forTitlebar then { r := c.r, g := c.g, b := c.b, a := 255 } else c) := by
  refine ⟨{ Color := if forTitlebar then c.with_alpha 255 else c, Opacity := 1 }, rfl, ?_⟩
  cases forTitlebar <;> rfl

/-- C5: a `TerminalBackground` theme colour evaluated against a solid-colour
terminal background gives, for the title bar, a solid-colour brush with the same
red, green and blue and alpha 255, whatever the alpha was; outside the title bar
it gives back the terminal-background brush itself. -/
theorem Evaluate_TerminalBackground_solid (reg : Registry) (self : ThemeColor)
    (res : ResourceDictionary) (solidColor : SolidColorBrush)
    (hType : self.ColorType = ThemeColorType.TerminalBackground) :
    (∃ newBrush : SolidColorBrush,
      self.Evaluate reg res (Brush.solid solidColor) true = Except.ok (Brush.solid newBrush) ∧
      newBrush.Color.r = solidColor.Color.r ∧ newBrush.Color.g = solidColor.Color.g ∧
      newBrush.Color.b = solidColor.Color.b ∧ newBrush.Color.a = 255) ∧
    self.Evaluate reg res (Brush.solid solidColor) false
      = Except.ok (Brush.solid solidColor) := by
  constructor
  · refine ⟨{ Color := solidColor.Color.with_alpha 255, Opacity := 1 }, ?_, rfl, rfl, rfl, rfl⟩
    simp only [ThemeColor.Evaluate, hType]
    rfl
  · simp only [ThemeColor.Evaluate, hType]
    rfl

/-- Witness of C5: a quarter-opaque orange background drawn at 70% brush opacity. -/
theorem Evaluate_TerminalBackground_solid_witness :
    ThemeColor.FromTerminalBackground.ColorType = ThemeColorType.TerminalBackground ∧
    (∃ newBrush : SolidColorBrush,
      ThemeColor.FromTerminalBackground.Evaluate ⟨none⟩ (fun _ => none)
        (Brush.solid ⟨⟨255, 128, 0, 64⟩, 7 / 10⟩) true = Except.ok (Brush.solid newBrush) ∧
      newBrush.Color.r = 255 ∧ newBrush.Color.g = 128 ∧
      newBrush.Color.b = 0 ∧ newBrush.Color.a = 255) ∧
    ThemeColor.FromTerminalBackground.Evaluate ⟨none⟩ (fun _ => none)
      (Brush.solid ⟨⟨255, 128, 0, 64⟩, 7 / 10⟩) false
      = Except.ok (Brush.solid ⟨⟨255, 128, 0, 64⟩, 7 / 10⟩) :=
  ⟨rfl, Evaluate_TerminalBackground_solid ⟨none⟩ ThemeColor.FromTerminalBackground
    (fun _ => none) ⟨⟨255, 128, 0, 64⟩, 7 / 10⟩ rfl⟩

/-- C6: a `TerminalBackground` theme colour evaluated for the title bar against an
acrylic terminal background gives an acrylic brush with the same `TintColor`,
`FallbackColor` and `TintLuminosityOpacity`, with `TintOpacity` one half and with
`BackgroundSource` `HostBackdrop`, whatever the last two were. -/
theorem Evaluate_TerminalBackground_acrylic (reg : Registry) (self : ThemeColor)
    (res : ResourceDictionary) (acrylic : AcrylicBrush)
    (hType : self.ColorType = ThemeColorType.TerminalBackground) :
    ∃ newBrush : AcrylicBrush,
      self.Evaluate reg res (Brush.acrylic acrylic) true = Except.ok (Brush.acrylic newBrush) ∧
      newBrush.TintColor = acrylic.TintColor ∧
      newBrush.FallbackColor = acrylic.FallbackColor ∧
      newBrush.TintLuminosityOpacity = acrylic.TintLuminosityOpacity ∧
      newBrush.TintOpacity = 1 / 2 ∧
      newBrush.BackgroundSource = AcrylicBackgroundSource.HostBackdrop := by
  refine ⟨{ TintColor := acrylic.TintColor, FallbackColor := acrylic.FallbackColor,
            TintLuminosityOpacity := acrylic.TintLuminosityOpacity, TintOpacity := 1 / 2,
            BackgroundSource := AcrylicBackgroundSource.HostBackdrop, Opacity := 1 },
    ?_, rfl, rfl, rfl, rfl, rfl⟩
  simp only [ThemeColor.Evaluate, hType]
  rfl

/-- Witness of C6: an acrylic background with tint opacity 4/5 drawn over the
in-app backdrop. -/
theorem Evaluate_TerminalBackground_acrylic_witness :
    ThemeColor.FromTerminalBackground.ColorType = ThemeColorType.TerminalBackground ∧
    ∃ newBrush : AcrylicBrush,
      ThemeColor.FromTerminalBackground.Evaluate ⟨some 16711680⟩ (fun _ => none)
        (Brush.acrylic ⟨⟨1, 2, 3, 4⟩, ⟨5, 6, 7, 8⟩, some (3 / 10), 4 / 5,
          AcrylicBackgroundSource.Backdrop, 1⟩) true = Except.ok (Brush.acrylic newBrush) ∧
      newBrush.TintColor = ⟨1, 2, 3, 4⟩ ∧
      newBrush.FallbackColor = ⟨5, 6, 7, 8⟩ ∧
      newBrush.TintLuminosityOpacity = some (3 / 10) ∧
      newBrush.TintOpacity = 1 / 2 ∧
      newBrush.BackgroundSource = AcrylicBackgroundSource.HostBackdrop :=
  ⟨rfl, Evaluate_TerminalBackground_acrylic ⟨some 16711680⟩ ThemeColor.FromTerminalBackground
    (fun _ => none) ⟨⟨1, 2, 3, 4⟩, ⟨5, 6, 7, 8⟩, some (3 / 10), 4 / 5,
      AcrylicBackgroundSource.Backdrop, 1⟩ rfl⟩

/-! ## Object members -/

/-- A member just assigned is the one found under its key. -/
theorem Members.lookup_assign_self (members : Members) (key : String) (value : Json) :
    (members.assign key value).lookup key = some value := by
  induction members with
  | nil => simp [Members.assign, List.lookup]
  | cons head rest ih =>
    obtain ⟨k, v⟩ := head
    by_cases h : key = k
    · subst h
      simp [Members.assign, List.lookup]
    · have hb : (key == k) = false := by simpa using h
      simp [Members.assign, List.lookup, hb, ih]

/-- Assigning under one key leaves what is found under every other key. -/
theorem Members.lookup_assign_of_ne (members : Members) (key other : String) (value : Json)
    (hne : other ≠ key) :
    (members.assign key value).lookup other = members.lookup other := by
  induction members with
  | nil =>
    have hb : (other == key) = false := by simpa using hne
    simp [Members.assign, List.lookup, hb]
  | cons head rest ih =>
    obtain ⟨k, v⟩ := head
    by_cases h : key = k
    · subst h
      have hb : (other == key) = false := by simpa using hne
      simp [Members.assign, List.lookup, hb]
    · have hb : (key == k) = false := by simpa using h
      simp only [Members.assign, hb, List.lookup]
      cases hok : other == k <;> simp [ih]

/-! ## The macro-generated converters -/

/-- Writing a table leaves the members under keys the table does not use. -/
theorem TO_JSON_fold_lookup_other {σ : Type} (table : List (Setting σ)) (val : σ)
    (init : Members) (key : String) (hkey : ∀ row ∈ table, row.jsonKey ≠ key) :
    (table.foldl (fun json row => THEME_SETTINGS_TO_JSON row val json) init).lookup key
      = init.lookup key := by
  induction table generalizing init with
  | nil => rfl
  | cons head rest ih =>
    simp only [List.foldl_cons]
    rw [ih _ (fun row hrow => hkey row (List.mem_cons_of_mem _ hrow))]
    exact Members.lookup_assign_of_ne _ _ _ _ (fun h => hkey head (List.mem_cons_self _ _) h.symm)

/-- Writing a table with distinct keys stores every row's converted value under
the row's key. -/
theorem TO_JSON_fold_lookup {σ : Type} (table : List (Setting σ)) (val : σ) (init : Members)
    (hkeys : table.Pairwise (fun a b => a.jsonKey ≠ b.jsonKey)) :
    ∀ row ∈ table,
      (table.foldl (fun json row => THEME_SETTINGS_TO_JSON row val json) init).lookup row.jsonKey
        = some (row.conv.ToJson (row.get val)) := by
  induction table generalizing init with
  | nil => intro row hrow; cases hrow
  | cons head rest ih =>
    intro row hrow
    rw [List.pairwise_cons] at hkeys
    simp only [List.foldl_cons]
    rcases List.mem_cons.mp hrow with rfl | hmem
    · rw [TO_JSON_fold_lookup_other rest val _ _ (fun b hb h => hkeys.1 b hb h.symm)]
      exact Members.lookup_assign_self _ _ _
    · exact ih _ hkeys.2 row hmem

/-- Reading one row from an object that holds the row's written value stores that
value. -/
theorem FROM_JSON_of_lookup {σ : Type} (row : Setting σ) (val result : σ) (members : Members)
    (hlookup : members.lookup row.jsonKey = some (row.conv.ToJson (row.get val)))
    (hrt : row.RoundTrips val) :
    THEME_SETTINGS_FROM_JSON row (Json.object members) result
      = Except.ok (row.set result (row.get val)) := by
  obtain ⟨hcan, hfrom⟩ := hrt
  simp [THEME_SETTINGS_FROM_JSON, JsonUtils.GetOptionalValueForKey, JsonUtils.GetValueForKey,
    JsonUtils.GetValue, JsonUtils.OptionalConverter, Json.find, hlookup, hcan, hfrom,
    bind, Except.bind, pure, Except.pure]

/-- Reading a whole table from an object that holds every row's written value
runs every setter and raises nothing. -/
theorem FROM_JSON_fold {σ : Type} (table : List (Setting σ)) (val init : σ) (members : Members)
    (hlookup : ∀ row ∈ table,
      members.lookup row.jsonKey = some (row.conv.ToJson (row.get val)))
    (hrt : ∀ row ∈ table, row.RoundTrips val) :
    table.foldlM (fun result row => THEME_SETTINGS_FROM_JSON row (Json.object members) result) init
      = Except.ok (table.foldl (fun result row => row.set result (row.get val)) init) := by
  induction table generalizing init with
  | nil => rfl
  | cons head rest ih =>
    simp only [List.foldlM_cons, List.foldl_cons]
    rw [FROM_JSON_of_lookup head val init members (hlookup head (List.mem_cons_self _ _))
      (hrt head (List.mem_cons_self _ _))]
    exact ih _ (fun row hrow => hlookup row (List.mem_cons_of_mem _ hrow))
      (fun row hrow => hrt row (List.mem_cons_of_mem _ hrow))

/-- Setters of other rows do not change what a row's getter returns. -/
theorem set_fold_get_other {σ : Type} (table : List (Setting σ)) (val init : σ)
    (row : Setting σ)
    (hframe : ∀ a ∈ table, ∀ (s : σ) (v : a.type), row.get (a.set s v) = row.get s) :
    row.get (table.foldl (fun result row => row.set result (row.get val)) init) = row.get init := by
  induction table generalizing init with
  | nil => rfl
  | cons head rest ih =>
    simp only [List.foldl_cons]
    rw [ih _ (fun a ha => hframe a (List.mem_cons_of_mem _ ha))]
    exact hframe head (List.mem_cons_self _ _) _ _

/-- After every setter of a well-formed table has run with the values of `val`,
every getter returns the value it returns on `val`. -/
theorem set_fold_get {σ : Type} (table : List (Setting σ)) (val init : σ)
    (hwf : WellFormedTable table) :
    ∀ row ∈ table,
      row.get (table.foldl (fun result row => row.set result (row.get val)) init) = row.get val := by
  induction table generalizing init with
  | nil => intro row hrow; cases hrow
  | cons head rest ih =>
    intro row hrow
    obtain ⟨hget, hpair⟩ := hwf
    rw [List.pairwise_cons] at hpair
    simp only [List.foldl_cons]
    rcases List.mem_cons.mp hrow with rfl | hmem
    · rw [set_fold_get_other rest val _ _ (fun a ha => (hpair.1 a ha).2.2)]
      exact hget _ (List.mem_cons_self _ _) _ _
    · exact ih _ ⟨fun r hr => hget r (List.mem_cons_of_mem _ hr), hpair.2⟩ row hmem

/-- A sub-object written by its macro-generated converter is an object, and the
same converter reads it back into a sub-object with the same value in every row
of the table. -/
theorem OBJECT_CONVERTER_roundtrip {σ : Type} (make_self : σ) (table : List (Setting σ))
    (val : σ) (hwf : WellFormedTable table) (hrt : ∀ row ∈ table, row.RoundTrips val) :
    ∃ members result,
      (THEME_OBJECT_CONVERTER make_self table).ToJson (some val) = Json.object members ∧
      (THEME_OBJECT_CONVERTER make_self table).FromJson (Json.object members)
        = Except.ok (some result) ∧
      ∀ row ∈ table, row.get result = row.get val := by
  refine ⟨table.foldl (fun json row => THEME_SETTINGS_TO_JSON row val json) [],
    table.foldl (fun result row => row.set result (row.get val)) make_self, rfl, ?_,
    set_fold_get table val make_self hwf⟩
  have hkeys : table.Pairwise (fun a b => a.jsonKey ≠ b.jsonKey) :=
    hwf.2.imp (fun h => h.1)
  simp only [THEME_OBJECT_CONVERTER, Json.isNull]
  rw [FROM_JSON_fold table val make_self _ (TO_JSON_fold_lookup table val [] hkeys) hrt]
  rfl

/-! ## Layering JSON onto a theme -/

/-- A sub-object whose key the object does not have becomes null. -/
theorem LAYER_JSON_absent {σ : Type} (conv : ConversionTrait (Option σ)) (members : Members)
    (key : String) (hKey : members.lookup key = none) :
    THEME_SETTINGS_LAYER_JSON conv (Json.object members) key = Except.ok none := by
  simp [THEME_SETTINGS_LAYER_JSON, JsonUtils.GetOptionalValueForKey, JsonUtils.GetValueForKey,
    Json.find, hKey, bind, Except.bind, pure, Except.pure]

/-- A sub-object whose key holds a convertible value becomes the converted value. -/
theorem LAYER_JSON_present {σ : Type} (conv : ConversionTrait (Option σ)) (members : Members)
    (key : String) (found : Json) (v : Option σ) (hKey : members.lookup key = some found)
    (hCan : conv.CanConvert found = true) (hFrom : conv.FromJson found = Except.ok v) :
    THEME_SETTINGS_LAYER_JSON conv (Json.object members) key = Except.ok v := by
  simp [THEME_SETTINGS_LAYER_JSON, JsonUtils.GetOptionalValueForKey, JsonUtils.GetValueForKey,
    JsonUtils.GetValue, JsonUtils.OptionalConverter, Json.find, hKey, hCan, hFrom,
    bind, Except.bind, pure, Except.pure]

/-- `LayerJson` on a value that is not a string, read off as its three reads in
sequence. -/
theorem LayerJson_not_string (cfg : Settings) (self : Theme) (json : Json)
    (hString : json.isString = false) :
    self.LayerJson cfg json =
      match JsonUtils.GetValueForKey cfg.hstringTrait json NameKey with
      | Except.error e => Except.error e
      | Except.ok name =>
          match THEME_SETTINGS_LAYER_JSON cfg.WindowThemeTrait json WindowKey with
          | Except.error e => Except.error e
          | Except.ok window =>
              match THEME_SETTINGS_LAYER_JSON cfg.TabRowThemeTrait json TabRowKey with
              | Except.error e => Except.error e
              | Except.ok tabRow =>
                  Except.ok { Name := name.getD self.Name, Window := window, TabRow := tabRow } := by
  simp only [Theme.LayerJson, hString]
  cases hN : JsonUtils.GetValueForKey cfg.hstringTrait json NameKey with
  | error e => rfl
  | ok name =>
    cases hW : THEME_SETTINGS_LAYER_JSON cfg.WindowThemeTrait json WindowKey with
    | error e => cases name <;> simp [hW, bind, Except.bind, pure, Except.pure]
    | ok window =>
      cases hT : THEME_SETTINGS_LAYER_JSON cfg.TabRowThemeTrait json TabRowKey with
      | error e => cases name <;> simp [hW, hT, bind, Except.bind, pure, Except.pure]
      | ok tabRow => cases name <;> simp [hW, hT, bind, Except.bind, pure, Except.pure]

/-- The members `Theme::ToJson` writes. -/
theorem ToJson_lookup (cfg : Settings) (t : Theme) :
    ∃ members : Members,
      t.ToJson cfg = Json.object members ∧
      members.lookup NameKey = some (cfg.hstringTrait.ToJson t.Name) ∧
      members.lookup WindowKey
        = t.Window.map (fun window => cfg.WindowThemeTrait.ToJson (some window)) ∧
      members.lookup TabRowKey
        = t.TabRow.map (fun tabRow => cfg.TabRowThemeTrait.ToJson (some tabRow)) := by
  obtain ⟨name, window, tabRow⟩ := t
  cases window <;> cases tabRow <;> exact ⟨_, rfl, rfl, rfl, rfl⟩

/-- Reading one sub-object member back: absent stays null, present is read by the
macro-generated converter. -/
theorem LAYER_JSON_roundtrip {σ : Type} (make_self : σ) (table : List (Setting σ))
    (sub : Option σ) (members : Members) (key : String)
    (hKey : members.lookup key
      = sub.map (fun val => (THEME_OBJECT_CONVERTER make_self table).ToJson (some val)))
    (hwf : WellFormedTable table)
    (hrt : ∀ val, sub = some val → ∀ row ∈ table, row.RoundTrips val) :
    ∃ result : Option σ,
      THEME_SETTINGS_LAYER_JSON (THEME_OBJECT_CONVERTER make_self table) (Json.object members) key
        = Except.ok result ∧
      (result = none ↔ sub = none) ∧
      ∀ val val', sub = some val → result = some val' →
        ∀ row ∈ table, row.get val' = row.get val := by
  cases sub with
  | none =>
    refine ⟨none, LAYER_JSON_absent _ members key (by simpa using hKey), by simp, ?_⟩
    intro val val' h
    cases h
  | some val =>
    obtain ⟨written, result, hTo, hFrom, hget⟩ :=
      OBJECT_CONVERTER_roundtrip make_self table val hwf (hrt val rfl)
    refine ⟨some result, ?_, by simp, ?_⟩
    · refine LAYER_JSON_present _ members key (Json.object written) (some result) ?_ rfl hFrom
      rw [hKey, Option.map_some', hTo]
    · intro v v' hv hv'
      cases hv
      cases hv'
      exact hget

/-! ## The concrete configuration is well formed -/

/-- The window table of the concrete configuration is well formed. -/
theorem stockWindowSettings_wellFormed : WellFormedTable stockWindowSettings := by
  simp [WellFormedTable, stockWindowSettings]

/-- The tab-row table of the concrete configuration is well formed. -/
theorem stockTabRowSettings_wellFormed : WellFormedTable stockTabRowSettings := by
  simp [WellFormedTable, stockTabRowSettings]

/-! ## Theme -/

/-- C1: `RequestedTheme()` is the `RequestedTheme` of the window sub-object when
there is one and `ElementTheme::Default` when `Window` is null. For a JSON object
without the key `window`, every theme `FromJson` returns has a null `Window` and
so `RequestedTheme()` `Default`; `FromJson` returns unless reading `name` or
`tabRow` raises, and then it raises that same exception. -/
theorem RequestedTheme_of_window (cfg : Settings) (t : Theme) (members : Members)
    (hKey : members.lookup WindowKey = none) :
    (∀ window, t.Window = some window → t.RequestedTheme = window.RequestedTheme) ∧
    (t.Window = none → t.RequestedTheme = ElementTheme.Default) ∧
    (∀ r, Theme.FromJson cfg (Json.object members) = Except.ok r →
      ∃ result : Theme, r = some result ∧ result.Window = none ∧
        result.RequestedTheme = ElementTheme.Default) ∧
    (∀ e, Theme.FromJson cfg (Json.object members) = Except.error e →
      JsonUtils.GetValueForKey cfg.hstringTrait (Json.object members) NameKey = Except.error e ∨
      THEME_SETTINGS_LAYER_JSON cfg.TabRowThemeTrait (Json.object members) TabRowKey
        = Except.error e) := by
  have hW := LAYER_JSON_absent cfg.WindowThemeTrait members WindowKey hKey
  have hL := LayerJson_not_string cfg Theme.make_self (Json.object members) rfl
  rw [hW] at hL
  refine ⟨fun window h => by simp [Theme.RequestedTheme, h],
    fun h => by simp [Theme.RequestedTheme, h], ?_, ?_⟩
  · intro r hr
    simp only [Theme.FromJson, hL] at hr
    cases hN : JsonUtils.GetValueForKey cfg.hstringTrait (Json.object members) NameKey <;>
      cases hT : THEME_SETTINGS_LAYER_JSON cfg.TabRowThemeTrait (Json.object members) TabRowKey <;>
      simp [hN, hT, bind, Except.bind, pure, Except.pure] at hr
    subst hr
    exact ⟨_, rfl, rfl, rfl⟩
  · intro e he
    simp only [Theme.FromJson, hL] at he
    cases hN : JsonUtils.GetValueForKey cfg.hstringTrait (Json.object members) NameKey <;>
      cases hT : THEME_SETTINGS_LAYER_JSON cfg.TabRowThemeTrait (Json.object members) TabRowKey <;>
      simp [hN, hT, bind, Except.bind, pure, Except.pure] at he
    · exact Or.inl (by rw [he])
    · exact Or.inl (by rw [he])
    · exact Or.inr (by rw [he])

/-- Witness of C1: the object `{"name": "Dracula", "tabRow": {"background":
"accent"}}` has no `window` key, `FromJson` returns a theme for it, and that
theme has a null `Window` and `RequestedTheme()` `Default`. -/
theorem RequestedTheme_of_window_witness :
    List.lookup WindowKey
      [("name", Json.string "Dracula"),
       ("tabRow", Json.object [("background", Json.string "accent")])] = none ∧
    ∃ result : Theme,
      Theme.FromJson stockSettings
        (Json.object [("name", Json.string "Dracula"),
          ("tabRow", Json.object [("background", Json.string "accent")])])
        = Except.ok (some result) ∧
      result.Name = "Dracula" ∧ result.Window = none ∧
      result.RequestedTheme = ElementTheme.Default := by
  refine ⟨rfl, ?_⟩
  obtain ⟨result, hr, hWindow, hDefault⟩ :=
    (RequestedTheme_of_window stockSettings Theme.make_self
      [("name", Json.string "Dracula"),
       ("tabRow", Json.object [("background", Json.string "accent")])] rfl).2.2.1
      (some { Name := "Dracula", Window := none,
              TabRow := some { Background := some ThemeColor.FromAccent,
                               UnfocusedBackground := none } }) rfl
  cases hr
  exact ⟨_, rfl, rfl, hWindow, hDefault⟩

/-- C2 (the code at the failing input): `FromJson` never returns a null pointer.
For the JSON value null it returns a theme with empty name and both sub-objects
null; for a number it raises jsoncpp's logic error; and whatever the value and
the configuration, a returned pointer is non-null. -/
theorem FromJson_never_nullptr (cfg : Settings) (json : Json) :
    Theme.FromJson cfg Json.null
      = Except.ok (some { Name := "", Window := none, TabRow := none }) ∧
    Theme.FromJson cfg (Json.number 5) = Except.error Exn.logicError ∧
    Theme.FromJson cfg json ≠ Except.ok none := by
  refine ⟨rfl, rfl, ?_⟩
  unfold Theme.FromJson
  cases h : Theme.make_self.LayerJson cfg json <;>
    simp [bind, Except.bind, pure, Except.pure, h]

/-- C3: serialising a theme and parsing it back returns a theme with the same
name, with `Window` null exactly when it was null, with `TabRow` null exactly when
it was null, and with every row of a non-null sub-object's table holding the value
it held, provided the tables are well formed and the converters read back what
they write for the theme's name and for the sub-objects' values. -/
theorem FromJson_ToJson_roundtrip (cfg : Settings) (t : Theme)
    (hName : cfg.hstringTrait.CanConvert (cfg.hstringTrait.ToJson t.Name) = true ∧
      cfg.hstringTrait.FromJson (cfg.hstringTrait.ToJson t.Name) = Except.ok t.Name)
    (hWindowTable : WellFormedTable cfg.MTSM_THEME_WINDOW_SETTINGS)
    (hTabRowTable : WellFormedTable cfg.MTSM_THEME_TABROW_SETTINGS)
    (hWindow : ∀ window, t.Window = some window →
      ∀ row ∈ cfg.MTSM_THEME_WINDOW_SETTINGS, row.RoundTrips window)
    (hTabRow : ∀ tabRow, t.TabRow = some tabRow →
      ∀ row ∈ cfg.MTSM_THEME_TABROW_SETTINGS, row.RoundTrips tabRow) :
    ∃ result : Theme,
      Theme.FromJson cfg (t.ToJson cfg) = Except.ok (some result) ∧
      result.Name = t.Name ∧
      (result.Window = none ↔ t.Window = none) ∧
      (result.TabRow = none ↔ t.TabRow = none) ∧
      (∀ window window', t.Window = some window → result.Window = some window' →
        ∀ row ∈ cfg.MTSM_THEME_WINDOW_SETTINGS, row.get window' = row.get window) ∧
      (∀ tabRow tabRow', t.TabRow = some tabRow → result.TabRow = some tabRow' →
        ∀ row ∈ cfg.MTSM_THEME_TABROW_SETTINGS, row.get tabRow' = row.get tabRow) := by
  obtain ⟨members, hJson, hN, hW, hT⟩ := ToJson_lookup cfg t
  obtain ⟨window, hWindowRead, hWindowNull, hWindowGet⟩ :=
    LAYER_JSON_roundtrip WindowTheme.make_self cfg.MTSM_THEME_WINDOW_SETTINGS t.Window members
      WindowKey hW hWindowTable hWindow
  obtain ⟨tabRow, hTabRowRead, hTabRowNull, hTabRowGet⟩ :=
    LAYER_JSON_roundtrip TabRowTheme.make_self cfg.MTSM_THEME_TABROW_SETTINGS t.TabRow members
      TabRowKey hT hTabRowTable hTabRow
  have hNameRead : JsonUtils.GetValueForKey cfg.hstringTrait (Json.object members) NameKey
      = Except.ok (some t.Name) := by
    simp [JsonUtils.GetValueForKey, JsonUtils.GetValue, Json.find, hN, hName.1, hName.2,
      bind, Except.bind, pure, Except.pure]
  refine ⟨{ Name := t.Name, Window := window, TabRow := tabRow }, ?_, rfl, hWindowNull,
    hTabRowNull, hWindowGet, hTabRowGet⟩
  rw [hJson]
  simp only [Theme.FromJson]
  rw [LayerJson_not_string cfg Theme.make_self (Json.object members) rfl, hNameRead]
  simp only [Settings.WindowThemeTrait, Settings.TabRowThemeTrait]
  rw [hWindowRead, hTabRowRead]
  rfl

/-- Witness of C3: a dark theme with mica, an accent-coloured tab row and a
quarter-opaque orange unfocused tab row, in the concrete configuration. -/
theorem FromJson_ToJson_roundtrip_witness :
    ∃ result : Theme,
      Theme.FromJson stockSettings
        (Theme.ToJson stockSettings
          { Name := "Campbell",
            Window := some { RequestedTheme := ElementTheme.Dark, UseMica := true },
            TabRow := some { Background := some ThemeColor.FromAccent,
                             UnfocusedBackground :=
                               some (ThemeColor.FromColor ⟨255, 128, 0, 64⟩) } })
        = Except.ok (some result) ∧
      result.Name = "Campbell" ∧
      (result.Window = none ↔
        some ({ RequestedTheme := ElementTheme.Dark, UseMica := true } : WindowTheme) = none) ∧
      (result.TabRow = none ↔
        some ({ Background := some ThemeColor.FromAccent,
                UnfocusedBackground := some (ThemeColor.FromColor ⟨255, 128, 0, 64⟩) }
              : TabRowTheme) = none) ∧
      (∀ window window',
        some ({ RequestedTheme := ElementTheme.Dark, UseMica := true } : WindowTheme)
          = some window →
        result.Window = some window' →
        ∀ row ∈ stockSettings.MTSM_THEME_WINDOW_SETTINGS, row.get window' = row.get window) ∧
      (∀ tabRow tabRow',
        some ({ Background := some ThemeColor.FromAccent,
                UnfocusedBackground := some (ThemeColor.FromColor ⟨255, 128, 0, 64⟩) }
              : TabRowTheme) = some tabRow →
        result.TabRow = some tabRow' →
        ∀ row ∈ stockSettings.MTSM_THEME_TABROW_SETTINGS, row.get tabRow' = row.get tabRow) :=
  FromJson_ToJson_roundtrip stockSettings
    { Name := "Campbell",
      Window := some { RequestedTheme := ElementTheme.Dark, UseMica := true },
      TabRow := some { Background := some ThemeColor.FromAccent,
                       UnfocusedBackground := some (ThemeColor.FromColor ⟨255, 128, 0, 64⟩) } }
    ⟨rfl, rfl⟩ stockWindowSettings_wellFormed stockTabRowSettings_wellFormed
    (by
      intro window h
      cases h
      intro row hrow
      simp only [stockSettings, stockWindowSettings, List.mem_cons, List.mem_singleton,
        List.not_mem_nil, or_false] at hrow
      rcases hrow with rfl | rfl <;> exact ⟨rfl, rfl⟩)
    (by
      intro tabRow h
      cases h
      intro row hrow
      simp only [stockSettings, stockTabRowSettings, List.mem_cons, List.mem_singleton,
        List.not_mem_nil, or_false] at hrow
      rcases hrow with rfl | rfl <;> exact ⟨rfl, rfl⟩)

/-- C7: a JSON string the converters accept as the name `s` and as the element
theme `requestedTheme` is promoted by `FromJson` to a theme named `s` whose
`Window` is non-null with that `RequestedTheme` and whose `TabRow` is null; and
`LayerJson` of it on any existing theme returns with the theme's `TabRow`
unchanged. -/
theorem FromJson_bare_string (cfg : Settings) (s : String) (requestedTheme : ElementTheme)
    (hNameCan : cfg.hstringTrait.CanConvert (Json.string s) = true)
    (hName : cfg.hstringTrait.FromJson (Json.string s) = Except.ok s)
    (hThemeCan : cfg.elementThemeTrait.CanConvert (Json.string s) = true)
    (hTheme : cfg.elementThemeTrait.FromJson (Json.string s) = Except.ok requestedTheme) :
    (∃ result window, Theme.FromJson cfg (Json.string s) = Except.ok (some result) ∧
      result.Name = s ∧ result.Window = some window ∧
      window.RequestedTheme = requestedTheme ∧ result.TabRow = none) ∧
    (∀ self : Theme, ∃ result, self.LayerJson cfg (Json.string s) = Except.ok result ∧
      result.TabRow = self.TabRow) := by
  have hL : ∀ self : Theme, self.LayerJson cfg (Json.string s) = Except.ok
      { Name := s,
        Window := some { WindowTheme.make_self with RequestedTheme := requestedTheme },
        TabRow := self.TabRow } := by
    intro self
    simp [Theme.LayerJson, Json.isString, JsonUtils.GetValue, hNameCan, hName, hThemeCan, hTheme,
      bind, Except.bind, pure, Except.pure]
  refine ⟨⟨{ Name := s,
              Window := some { WindowTheme.make_self with RequestedTheme := requestedTheme },
              TabRow := none },
            { WindowTheme.make_self with RequestedTheme := requestedTheme },
            ?_, rfl, rfl, rfl, rfl⟩, fun self => ⟨_, hL self, rfl⟩⟩
  simp only [Theme.FromJson, hL]
  rfl

/-- Witness of C7: the bare string `"dark"` in the concrete configuration. -/
theorem FromJson_bare_string_witness :
    (∃ result window, Theme.FromJson stockSettings (Json.string "dark")
        = Except.ok (some result) ∧
      result.Name = "dark" ∧ result.Window = some window ∧
      window.RequestedTheme = ElementTheme.Dark ∧ result.TabRow = none) ∧
    (∀ self : Theme, ∃ result, self.LayerJson stockSettings (Json.string "dark")
        = Except.ok result ∧
      result.TabRow = self.TabRow) :=
  FromJson_bare_string stockSettings "dark" ElementTheme.Dark rfl rfl rfl rfl

/-- C8: `ToJson` returns a JSON object that has the key `name`, holding the
theme's name as the string converter writes it, that has the key `window` exactly
when `Window` is non-null and the key `tabRow` exactly when `TabRow` is non-null;
a present sub-object key holds the sub-object as its converter writes it. -/
theorem ToJson_object_keys (cfg : Settings) (t : Theme) :
    ∃ members : Members,
      t.ToJson cfg = Json.object members ∧
      members.lookup NameKey = some (cfg.hstringTrait.ToJson t.Name) ∧
      ((members.lookup WindowKey).isSome ↔ t.Window.isSome) ∧
      ((members.lookup TabRowKey).isSome ↔ t.TabRow.isSome) ∧
      (∀ window, t.Window = some window →
        members.lookup WindowKey = some (cfg.WindowThemeTrait.ToJson (some window))) ∧
      (∀ tabRow, t.TabRow = some tabRow →
        members.lookup TabRowKey = some (cfg.TabRowThemeTrait.ToJson (some tabRow))) := by
  obtain ⟨members, hJson, hN, hW, hT⟩ := ToJson_lookup cfg t
  refine ⟨members, hJson, hN, ?_, ?_, ?_, ?_⟩
  · rw [hW]
    cases t.Window <;> simp
  · rw [hT]
    cases t.TabRow <;> simp
  · intro window h
    rw [hW, h]
    rfl
  · intro tabRow h
    rw [hT, h]
    rfl

end Terminal
